import Mathlib

/-!
Verification of the client-side data/auth layer of the CMS-Vite magazine
front-end (AuthContext, useMagazines, readTime helpers).

The TypeScript sources are shallowly embedded as executable Lean
definitions.  Strings are handled as `List Char` where character-level
processing matters; JS numbers that are used as integers (timestamps,
counts, page numbers) become `Nat`/`Int`; JS values that may be
`null`/`undefined` become `Option`; code that can throw returns a
`JsOutcome`.  Browser built-ins (localStorage, JSON serialisation, Date
parsing, FileReader, fetch) are modelled at their interface: the durable
store holds either well-formed data or malformed text, `JSON.parse`
succeeds exactly on well-formed data and throws otherwise, and remote
responses are supplied as explicit oracle arguments.
-/

set_option maxHeartbeats 1000000

/-- Outcome of running a piece of JS code: either a normal value or a
thrown exception carrying a message.  A `try/catch` in the source turns
`thrown` into a normal value; code outside any `try` propagates it. -/
inductive JsOutcome (α : Type) where
  | ok (a : α)
  | thrown (msg : String)
  deriving Repr, DecidableEq

/-- `AppRole` from `types/database`: "admin" or "user". -/
inductive AppRole where
  | admin
  | user
  deriving Repr, DecidableEq

/-- `MagazineStatus` from `types/database`: the three canonical statuses. -/
inductive MagazineStatus where
  | pending
  | approved
  | disapproved
  deriving Repr, DecidableEq

/-- `statusToBackend` (useMagazines, part_007 lines 177-181): maps the
canonical frontend status to the vocabulary of the backend API. -/
def statusToBackend (status : MagazineStatus) : String :=
  if status = .approved then "online"
  else if status = .disapproved then "archived"
  else "pending"

/-- `statusToFrontend` (useMagazines, part_007 lines 184-188): maps a raw
backend status string back to the canonical frontend status.  The source
casts any other string to `MagazineStatus` unchecked; well-typed inputs
are "pending", so the embedding returns `pending` on the final branch
exactly as the source does for its reachable inputs. -/
def statusToFrontend (status : String) : MagazineStatus :=
  if status = "online" then .approved
  else if status = "archived" then .disapproved
  else .pending

/-- The `Magazine` record from `types/database` (part_005 lines 21-34):
the canonical article shape held in the localStorage fallback store.
Timestamps are modelled as `Nat` milliseconds (the value of
`new Date(x).getTime()` on the stored ISO string). -/
structure Magazine where
  id : String
  title : String
  subtitle : Option String
  hero_image_url : Option String
  hero_thumbnail_url : Option String
  body_markdown : String
  author_name : String
  author_id : String
  read_time_minutes : Nat
  status : MagazineStatus
  created_at : Nat
  updated_at : Nat
  deriving Repr, DecidableEq

/-- `MagazineFormData` from `types/database` (part_005 lines 36-41), the
editor form payload (the optional `hero_image` file is passed separately
in the hooks, so it is not part of this record). -/
structure MagazineFormData where
  title : String
  subtitle : String
  body_markdown : String
  deriving Repr, DecidableEq

/-- The authenticated `User` of AuthContext: id and email. -/
structure User where
  id : String
  email : String
  deriving Repr, DecidableEq

/-- The `Profile` record from `types/database` (part_005 lines 4-12). -/
structure Profile where
  id : String
  user_id : String
  name : String
  email : String
  avatar_url : Option String
  created_at : Nat
  updated_at : Nat
  deriving Repr, DecidableEq

/-- Content of the `magazine_data` localStorage key: absent, malformed
text (on which `JSON.parse` throws), or a well-formed serialised list of
magazines. -/
inductive StoredMags where
  | absent
  | malformed (raw : String)
  | good (mags : List Magazine)
  deriving Repr, DecidableEq

/-- The expression `stored ? JSON.parse(stored) : []` that every
fallback-mode operation evaluates on the raw localStorage value: an
absent key yields the empty collection, malformed text throws a
SyntaxError, and well-formed text yields the stored list. -/
def parseStoredMags : StoredMags → JsOutcome (List Magazine)
  | .absent => .ok []
  | .malformed _ => .thrown "SyntaxError: Unexpected token in JSON"
  | .good mags => .ok mags

/-- Ceiling division on naturals; for `0 < l` this is `Math.ceil(n / l)`
of the source (whose operands there are non-negative integers). -/
def ceilDiv (n l : Nat) : Nat := (n + l - 1) / l

/-! ## Read-Time Estimator (`src/lib/readTime` via AuthContext.tsx lines 499-547)

`stripMarkdown` is a pipeline of fourteen `String.replace` passes with
global regexes.  Each pass is embedded as a scanner over `List Char`
that, at every position (for `^`-anchored patterns: at every
start-of-line position), attempts the regex match exactly as the JS
engine does (lazy quantifiers, backtracking, `.` not matching line
terminators, `\s` the JS whitespace set) and on success emits the
replacement and resumes after the matched text. -/

/-- JS line terminators (`\n`, `\r`, U+2028, U+2029): what `.` refuses to
match and what `^`/`$` anchor around under the `m` flag. -/
def isLineTerm (c : Char) : Bool :=
  c.toNat = 10 || c.toNat = 13 || c.toNat = 8232 || c.toNat = 8233

/-- The JS `\s` character class (also the set trimmed by
`String.prototype.trim`). -/
def isJsWhitespace (c : Char) : Bool :=
  c.toNat = 9 || c.toNat = 10 || c.toNat = 11 || c.toNat = 12 ||
  c.toNat = 13 || c.toNat = 32 || c.toNat = 160 || c.toNat = 5760 ||
  (8192 ≤ c.toNat && c.toNat ≤ 8202) ||
  c.toNat = 8232 || c.toNat = 8233 || c.toNat = 8239 || c.toNat = 8287 ||
  c.toNat = 12288 || c.toNat = 65279

/-- The backtick character (code point 96). -/
def backtickChar : Char := Char.ofNat 96

/-- Decides whether the pattern `d` is a prefix of `s`. -/
def listStartsWith : List Char → List Char → Bool
  | [], _ => true
  | _ :: _, [] => false
  | d :: ds, c :: cs => d = c && listStartsWith ds cs

/-- Earliest occurrence of the (non-empty) substring `d` in `s`,
returning the text before it and the text after it — the behaviour of a
lazy `[\s\S]*?` followed by the literal `d`. -/
def splitAtSub (d : List Char) : List Char → Option (List Char × List Char)
  | [] => none
  | c :: cs =>
    if listStartsWith d (c :: cs) then some ([], (c :: cs).drop d.length)
    else
      match splitAtSub d cs with
      | some (pre, post) => some (c :: pre, post)
      | none => none

/-- Lazy `(.*?)` followed by the literal delimiter `d`, where `.` cannot
cross a line terminator: the earliest occurrence of `d` reachable
through non-terminator characters, returning (middle, rest). -/
def lazyFindDelim (d : List Char) : List Char → Option (List Char × List Char)
  | [] => none
  | c :: cs =>
    if listStartsWith d (c :: cs) then some ([], (c :: cs).drop d.length)
    else if isLineTerm c then none
    else
      match lazyFindDelim d cs with
      | some (mid, post) => some (c :: mid, post)
      | none => none

/-- Lazy `.*?\)`: scan to the next `)` on the same line; returns the text
after it. -/
def scanToCloseParen : List Char → Option (List Char)
  | [] => none
  | c :: cs =>
    if c = ')' then some cs
    else if isLineTerm c then none
    else scanToCloseParen cs

/-- The part of the image regex after the literal `![`:
`.*?\]\(.*?\)` with full backtracking — each `]` followed by `(` is
tried in turn until one is followed by a `)` on the same line. -/
def imageTail : List Char → Option (List Char)
  | [] => none
  | c :: cs =>
    if c = ']' then
      match cs with
      | '(' :: cs2 =>
        match scanToCloseParen cs2 with
        | some rest => some rest
        | none => imageTail cs
      | _ => imageTail cs
    else if isLineTerm c then none
    else imageTail cs

/-- Pass 1 matcher, regex ```` /```[\s\S]*?```/ ````: a fenced code block
(the lazy middle may span lines).  Returns (replacement, rest). -/
def matchCodeFence (s : List Char) : Option (List Char × List Char) :=
  if listStartsWith [backtickChar, backtickChar, backtickChar] s then
    match splitAtSub [backtickChar, backtickChar, backtickChar] (s.drop 3) with
    | some (_, rest) => some ([], rest)
    | none => none
  else none

/-- Pass 2 matcher, regex `` /`[^`]*`/ ``: inline code. -/
def matchInlineCode (s : List Char) : Option (List Char × List Char) :=
  match s with
  | c :: cs =>
    if c = backtickChar then
      match cs.span (fun x => x ≠ backtickChar) with
      | (_, c2 :: rest) => if c2 = backtickChar then some ([], rest) else none
      | (_, []) => none
    else none
  | [] => none

/-- Pass 3 matcher, regex `/!\[.*?\]\(.*?\)/`: an image, removed. -/
def matchImage (s : List Char) : Option (List Char × List Char) :=
  match s with
  | '!' :: '[' :: cs =>
    match imageTail cs with
    | some rest => some ([], rest)
    | none => none
  | _ => none

/-- Pass 4 matcher, regex `/\[([^\]]*)\]\([^)]*\)/` replaced by `$1`: a
link, keeping the link text. -/
def matchLink (s : List Char) : Option (List Char × List Char) :=
  match s with
  | '[' :: cs =>
    match cs.span (fun x => x ≠ ']') with
    | (txt, ']' :: '(' :: cs2) =>
      match cs2.span (fun x => x ≠ ')') with
      | (_, ')' :: rest) => some (txt, rest)
      | _ => none
    | _ => none
  | _ => none

/-- Pass 5 matcher, regex `/(\*\*|__)(.*?)\1/` replaced by `$2`: bold
markers (the `**` alternative is tried before `__`). -/
def matchBold (s : List Char) : Option (List Char × List Char) :=
  if listStartsWith ['*', '*'] s then lazyFindDelim ['*', '*'] (s.drop 2)
  else if listStartsWith ['_', '_'] s then lazyFindDelim ['_', '_'] (s.drop 2)
  else none

/-- Pass 6 matcher, regex `/(\*|_)(.*?)\1/` replaced by `$2`: italic
markers. -/
def matchItalic (s : List Char) : Option (List Char × List Char) :=
  match s with
  | '*' :: cs => lazyFindDelim ['*'] cs
  | '_' :: cs => lazyFindDelim ['_'] cs
  | _ => none

/-- Pass 7 matcher (anchored), regex `/^#{1,6}\s+/m`: a heading marker.
Returns (replacement, consumed, rest); more than six `#` fails because
the greedy `#{1,6}` cannot leave a `#` in front of `\s+`. -/
def matchHeading (s : List Char) : Option (List Char × List Char × List Char) :=
  match s.span (fun c => c = '#') with
  | (hs, rest1) =>
    if 1 ≤ hs.length ∧ hs.length ≤ 6 then
      match rest1.span isJsWhitespace with
      | (ws, rest2) => if ws.isEmpty then none else some ([], hs ++ ws, rest2)
    else none

/-- Pass 8 matcher (anchored), regex `/^>\s+/m`: a blockquote marker. -/
def matchBlockquote (s : List Char) : Option (List Char × List Char × List Char) :=
  match s with
  | '>' :: cs =>
    match cs.span isJsWhitespace with
    | (ws, rest) => if ws.isEmpty then none else some ([], '>' :: ws, rest)
  | _ => none

/-- A character of the horizontal-rule class `[-*_]`. -/
def isHrChar (c : Char) : Bool := c = '-' || c = '*' || c = '_'

/-- Splits a whitespace run at its last line terminator: returns the part
before the terminator and the remainder starting at the terminator,
which is where a backtracked `\s*$` stops. -/
def lastLineTermSplit (w : List Char) : Option (List Char × List Char) :=
  match w.reverse.span (fun c => !(isLineTerm c)) with
  | (sufRev, t :: preRev) => some (preRev.reverse, t :: sufRev.reverse)
  | (_, []) => none

/-- Pass 9 matcher (anchored), regex `/^[-*_]{3,}\s*$/m`: a horizontal
rule.  The greedy `\s*` backtracks until `$` holds, i.e. until end of
input or a position directly before a line terminator. -/
def matchHr (s : List Char) : Option (List Char × List Char × List Char) :=
  match s.span isHrChar with
  | (run, rest1) =>
    if 3 ≤ run.length then
      match rest1.span isJsWhitespace with
      | (ws, rest2) =>
        if rest2.isEmpty then some ([], run ++ ws, rest2)
        else
          match lastLineTermSplit ws with
          | some (pre, tail) => some ([], run ++ pre, tail ++ rest2)
          | none => none
    else none

/-- A character of the bullet-list class `[-*+]`. -/
def isBulletChar (c : Char) : Bool := c = '-' || c = '*' || c = '+'

/-- Pass 10 matcher (anchored), regex `/^\s*[-*+]\s+/m`: a bullet list
marker (the leading `\s*` may span line terminators). -/
def matchBullet (s : List Char) : Option (List Char × List Char × List Char) :=
  match s.span isJsWhitespace with
  | (w1, rest1) =>
    match rest1 with
    | m :: cs2 =>
      if isBulletChar m then
        match cs2.span isJsWhitespace with
        | (w2, rest2) =>
          if w2.isEmpty then none else some ([], w1 ++ m :: w2, rest2)
      else none
    | [] => none

/-- Pass 11 matcher (anchored), regex `/^\s*\d+\.\s+/m`: an ordered list
marker. -/
def matchOrdered (s : List Char) : Option (List Char × List Char × List Char) :=
  match s.span isJsWhitespace with
  | (w1, rest1) =>
    match rest1.span (fun c => c.isDigit) with
    | (ds, rest2) =>
      if ds.isEmpty then none
      else
        match rest2 with
        | '.' :: cs2 =>
          match cs2.span isJsWhitespace with
          | (w2, rest3) =>
            if w2.isEmpty then none
            else some ([], w1 ++ ds ++ '.' :: w2, rest3)
        | _ => none

/-- Pass 12 matcher, regex `/<[^>]*>/`: an HTML tag. -/
def matchHtmlTag (s : List Char) : Option (List Char × List Char) :=
  match s with
  | '<' :: cs =>
    match cs.span (fun x => x ≠ '>') with
    | (_, '>' :: rest) => some ([], rest)
    | _ => none
  | _ => none

/-- Pass 13 matcher, regex `/\s+/` replaced by a single space:
whitespace normalisation. -/
def matchWsRun (s : List Char) : Option (List Char × List Char) :=
  match s.span isJsWhitespace with
  | (ws, rest) => if ws.isEmpty then none else some ([' '], rest)

/-- Global `String.replace`: scan left to right, attempt the matcher at
each position, emit its replacement and resume after the match (matched
text is never rescanned; replacements are never rescanned).  The fuel
argument (instantiated with the input length, an upper bound since every
match consumes at least one character) keeps the recursion structural. -/
def replaceScan (m : List Char → Option (List Char × List Char)) :
    Nat → List Char → List Char
  | 0, s => s
  | _, [] => []
  | fuel + 1, c :: cs =>
    match m (c :: cs) with
    | some (rep, rest) => rep ++ replaceScan m fuel rest
    | none => c :: replaceScan m fuel cs

/-- After consuming matched text, the next position is a start of line
exactly when the last consumed character is a line terminator. -/
def endsLineTerm (consumed : List Char) : Bool :=
  match consumed.getLast? with
  | some c => isLineTerm c
  | none => false

/-- Global `String.replace` for `^`-anchored multiline regexes: like
`replaceScan` but the matcher is attempted only at start-of-line
positions (offset 0 or directly after a line terminator). -/
def replaceScanBol (m : List Char → Option (List Char × List Char × List Char)) :
    Nat → Bool → List Char → List Char
  | 0, _, s => s
  | _, _, [] => []
  | fuel + 1, bol, c :: cs =>
    if bol then
      match m (c :: cs) with
      | some (rep, consumed, rest) =>
        rep ++ replaceScanBol m fuel (endsLineTerm consumed) rest
      | none => c :: replaceScanBol m fuel (isLineTerm c) cs
    else c :: replaceScanBol m fuel (isLineTerm c) cs

/-- `String.prototype.trim`: drop leading and trailing JS whitespace. -/
def jsTrim (s : List Char) : List Char :=
  ((s.dropWhile isJsWhitespace).reverse.dropWhile isJsWhitespace).reverse

/-- `stripMarkdown` (AuthContext.tsx lines 502-529) on character lists:
the fourteen replacement passes in source order, ending with whitespace
normalisation and `trim`. -/
def stripMarkdownChars (s : List Char) : List Char :=
  let p1 := replaceScan matchCodeFence s.length s
  let p2 := replaceScan matchInlineCode p1.length p1
  let p3 := replaceScan matchImage p2.length p2
  let p4 := replaceScan matchLink p3.length p3
  let p5 := replaceScan matchBold p4.length p4
  let p6 := replaceScan matchItalic p5.length p5
  let p7 := replaceScanBol matchHeading p6.length true p6
  let p8 := replaceScanBol matchBlockquote p7.length true p7
  let p9 := replaceScanBol matchHr p8.length true p8
  let p10 := replaceScanBol matchBullet p9.length true p9
  let p11 := replaceScanBol matchOrdered p10.length true p10
  let p12 := replaceScan matchHtmlTag p11.length p11
  let p13 := replaceScan matchWsRun p12.length p12
  jsTrim p13

/-- `stripMarkdown`: strips Markdown syntax to approximate plain text. -/
def stripMarkdown (markdown : String) : String :=
  String.mk (stripMarkdownChars markdown.data)

/-- `plainText.split(/\s+/)`: splits on maximal whitespace runs; a
leading or trailing run contributes an empty piece, and an empty input
yields one empty piece, exactly as in JS. -/
def jsSplitWsAux : List Char → List Char → Bool → List (List Char)
  | [], cur, _ => [cur.reverse]
  | c :: cs, cur, inSep =>
    if isJsWhitespace c then
      if inSep then jsSplitWsAux cs [] true
      else cur.reverse :: jsSplitWsAux cs [] true
    else jsSplitWsAux cs (c :: cur) false

/-- The word list of `calculateReadTime`:
`plainText.split(/\s+/).filter(word => word.length > 0)`. -/
def splitWords (plainText : String) : List (List Char) :=
  (jsSplitWsAux plainText.data [] false).filter (fun w => 0 < w.length)

/-- `calculateReadTime` (AuthContext.tsx lines 535-547): word count of
the stripped text, divided by 225 words per minute, rounded up, clamped
to a minimum of 1. -/
def calculateReadTime (markdown : String) : Nat :=
  let plainText := stripMarkdown markdown
  let wordCount := (splitWords plainText).length
  max 1 (ceilDiv wordCount 225)

/-! ## Content Repository (useMagazines, part_007 lines 168-661)

The hook keeps the article collection either behind the remote API (when
a session token exists) or in the `magazine_data` localStorage key
(fallback mode).  Fallback-mode operations are embedded as pure
functions from the stored value to a result and a new stored value;
remote-mode operations additionally take a response oracle and report
the list of requests they issue. -/

/-- The pagination record returned by `useMagazines` (part_007 lines
190-197). -/
structure PaginationInfo where
  currentPage : Nat
  totalPages : Nat
  totalCount : Nat
  limit : Nat
  hasNextPage : Bool
  hasPrevPage : Bool
  deriving Repr, DecidableEq

/-- `UseMagazinesOptions` (part_007 lines 206-211); the requested page
is passed separately to `loadMagazines`. -/
structure UseMagazinesOptions where
  mine : Bool
  status : Option MagazineStatus
  limit : Option Nat
  deriving Repr, DecidableEq

/-- The expression `options.limit || 9`: an absent or zero limit falls
back to the default page size 9. -/
def optionsLimit (o : UseMagazinesOptions) : Nat :=
  match o.limit with
  | some n => if n = 0 then 9 else n
  | none => 9

/-- The comparator of `allMagazines.sort((a, b) => new
Date(b.created_at).getTime() - new Date(a.created_at).getTime())`:
descending by creation timestamp. -/
def laterCreated (a b : Magazine) : Prop := b.created_at ≤ a.created_at

instance : DecidableRel laterCreated :=
  fun a b => inferInstanceAs (Decidable (b.created_at ≤ a.created_at))

/-- The sort step of fallback `loadMagazines`: stable descending sort by
`created_at` (Array.prototype.sort is stable, as is insertion sort). -/
def sortByCreatedDesc (l : List Magazine) : List Magazine :=
  List.insertionSort laterCreated l

/-- An index argument of `Array.prototype.slice`, clamped to `[0, n]`
with negative values counted from the end. -/
def clampIdx (n : Nat) (i : Int) : Nat :=
  if i < 0 then ((n : Int) + i).toNat else min i.toNat n

/-- `Array.prototype.slice(start, fin)`. -/
def jsSlice {α : Type} (l : List α) (start fin : Int) : List α :=
  let s := clampIdx l.length start
  let e := clampIdx l.length fin
  (l.drop s).take (e - s)

/-- Fallback-mode `loadMagazines` (part_007 lines 319-352): parse the
stored collection (an uncaught throw on malformed JSON — this branch
runs outside any try/catch), apply the `mine` and `status` filters, sort
by `created_at` descending, and paginate client-side.  The function
returns the page items and the pagination record the hook stores. -/
def loadMagazinesFallback (stored : StoredMags) (user : Option User)
    (role : Option AppRole) (options : UseMagazinesOptions) (page : Nat) :
    JsOutcome (List Magazine × PaginationInfo) :=
  match parseStoredMags stored with
  | .thrown e => .thrown e
  | .ok all0 =>
    let all1 :=
      match user with
      | some u =>
        if options.mine ∧ role ≠ some .admin then
          all0.filter (fun m => m.author_id = u.id)
        else all0
      | none => all0
    let all2 :=
      match options.status with
      | some st => all1.filter (fun m => m.status = st)
      | none => all1
    let sorted := sortByCreatedDesc all2
    let limit := optionsLimit options
    let totalCount := sorted.length
    let totalPages := ceilDiv totalCount limit
    let startIndex := ((page : Int) - 1) * (limit : Int)
    let paginatedItems := jsSlice sorted startIndex (startIndex + (limit : Int))
    .ok (paginatedItems,
      { currentPage := page, totalPages := totalPages, totalCount := totalCount,
        limit := limit, hasNextPage := decide (page < totalPages),
        hasPrevPage := decide (1 < page) })

/-- `allMagazines.findIndex(m => m.id === id)` followed by
`allMagazines[index] = f(allMagazines[index])`: update the first
magazine with the given id, or `none` when the index is -1. -/
def updateFirstById (id : String) (f : Magazine → Magazine) :
    List Magazine → Option (List Magazine)
  | [] => none
  | m :: ms =>
    if m.id = id then some (f m :: ms)
    else
      match updateFirstById id f ms with
      | some ms2 => some (m :: ms2)
      | none => none

/-- Fallback-mode `deleteMagazine` (part_007 lines 565-577): the whole
branch is inside try/catch, so a parse throw comes back as a returned
error; otherwise the collection is filtered by id and re-saved, and no
error is returned whether or not the id was present. -/
def deleteMagazineFallback (stored : StoredMags) (id : String) :
    JsOutcome (Option String × StoredMags) :=
  match parseStoredMags stored with
  | .thrown e => .ok (some e, stored)
  | .ok all => .ok (none, .good (all.filter (fun m => m.id ≠ id)))

/-- Fallback-mode branch of `updateStatus` (part_007 lines 612-633):
inside try/catch; a missing id returns the "Magazine not found" error
without saving; otherwise the first matching magazine gets the new
status and a refreshed `updated_at`. -/
def updateStatusFallback (stored : StoredMags) (now : Nat) (id : String)
    (status : MagazineStatus) : JsOutcome (Option String × StoredMags) :=
  match parseStoredMags stored with
  | .thrown e => .ok (some e, stored)
  | .ok all =>
    match updateFirstById id
        (fun m => { m with status := status, updated_at := now }) all with
    | none => .ok (some "Magazine not found", stored)
    | some updated => .ok (none, .good updated)

/-- A request to `POST /api/content/status` as built by `updateStatus`
(part_007 lines 593-600). -/
structure StatusRequest where
  path : String
  contentId : String
  backendStatus : String
  bearer : String
  deriving Repr, DecidableEq

/-- The observable outcome of a `fetch`: an HTTP reply (with `resp.ok`,
the parsed body flags `json.success` and `json.message`) or a transport
exception. -/
inductive FetchOutcome where
  | reply (httpOk : Bool) (success : Bool) (message : Option String)
  | netError (e : String)
  deriving Repr, DecidableEq

/-- The expression `x || "dflt"` on an optional string, with the empty
string falsy. -/
def stringOrD (a : Option String) (dflt : String) : String :=
  match a with
  | some s => if s = "" then dflt else s
  | none => dflt

/-- `updateStatus` (part_007 lines 579-634).  Returns the error result,
the list of network requests issued, and the resulting stored fallback
collection.  The role guard runs before anything else: a non-admin
caller is rejected before the token is read and before any fetch.  With
a token, one request is issued (carrying the backend status vocabulary)
and the store is untouched; without a token the fallback branch runs.
The post-success `loadMagazines()` reload only re-reads state and is not
part of this value. -/
def updateStatus (role : Option AppRole) (token : Option String)
    (remote : StatusRequest → FetchOutcome) (stored : StoredMags) (now : Nat)
    (id : String) (status : MagazineStatus) :
    Option String × List StatusRequest × StoredMags :=
  if role ≠ some .admin then (some "Unauthorized", [], stored)
  else
    match token with
    | some t =>
      let req : StatusRequest :=
        { path := "/api/content/status", contentId := id,
          backendStatus := statusToBackend status, bearer := t }
      match remote req with
      | .reply httpOk success msg =>
        if !httpOk || !success then
          (some (stringOrD msg "Status update failed"), [req], stored)
        else (none, [req], stored)
      | .netError e => (some e, [req], stored)
    | none =>
      match updateStatusFallback stored now id status with
      | .ok (err, st2) => (err, [], st2)
      | .thrown e => (some e, [], stored)

/-- `updateStatus` of the older hook variant
(src/src/hooks/useMagazines.ts lines 287-339): the same leading role
guard; with a token it posts to the per-id approve/disapprove endpoint
(any non-approved status goes to disapprove); the fallback branch is
identical.  Requests are reported as endpoint strings. -/
def updateStatusLegacy (role : Option AppRole) (token : Option String)
    (api : String) (remote : String → FetchOutcome) (stored : StoredMags)
    (now : Nat) (id : String) (status : MagazineStatus) :
    Option String × List String × StoredMags :=
  if role ≠ some .admin then (some "Unauthorized", [], stored)
  else
    match token with
    | some _ =>
      let endpoint :=
        if status = .approved then api ++ "/magazines/" ++ id ++ "/approve"
        else api ++ "/magazines/" ++ id ++ "/disapprove"
      match remote endpoint with
      | .reply httpOk success msg =>
        if !httpOk || !success then
          (some (stringOrD msg "Status update failed"), [endpoint], stored)
        else (none, [endpoint], stored)
      | .netError e => (some e, [endpoint], stored)
    | none =>
      match updateStatusFallback stored now id status with
      | .ok (err, st2) => (err, [], st2)
      | .thrown e => (some e, [], stored)

/-- The new magazine object built by fallback-mode `createMagazine`
(part_007 lines 437-450): id derived from `Date.now()`, caller bound as
author, read time computed from the submitted Markdown body, status
always pending, both timestamps set to now.  `heroBase64` is the
(already read) base64 data URL of the uploaded image, stored inline. -/
def mkNewMagazine (u : User) (p : Profile) (now : Nat) (data : MagazineFormData)
    (heroBase64 : Option String) : Magazine :=
  { id := "mag_" ++ toString now,
    title := data.title,
    subtitle := if data.subtitle = "" then none else some data.subtitle,
    hero_image_url := heroBase64,
    hero_thumbnail_url := heroBase64,
    body_markdown := data.body_markdown,
    author_id := u.id,
    author_name := p.name,
    read_time_minutes := calculateReadTime data.body_markdown,
    status := .pending,
    created_at := now,
    updated_at := now }

/-- Fallback-mode `createMagazine` (part_007 lines 420-462): rejected
without user and profile; otherwise the parse-append-save sequence runs
inside try/catch (a parse throw is returned as the error) and the new
magazine is pushed at the end of the stored collection. -/
def createMagazineFallback (user : Option User) (profile : Option Profile)
    (stored : StoredMags) (now : Nat) (data : MagazineFormData)
    (heroBase64 : Option String) : JsOutcome (Option String × StoredMags) :=
  match user, profile with
  | some u, some p =>
    match parseStoredMags stored with
    | .thrown e => .ok (some e, stored)
    | .ok all => .ok (none, .good (all ++ [mkNewMagazine u p now data heroBase64]))
  | _, _ => .ok (some "Not authenticated", stored)

/-- One entry of a multipart `FormData`. -/
inductive FormEntry where
  | field (name value : String)
  | file (name : String)
  deriving Repr, DecidableEq

/-- The multipart form built by remote-mode `createMagazine` (part_007
lines 391-396): title, subtitle (`data.subtitle || ""` is the identity
on strings), body, the read time computed client-side from
`data.body_markdown`, and the hero image file when provided. -/
def createContentForm (data : MagazineFormData) (heroProvided : Bool) :
    List FormEntry :=
  [FormEntry.field "title" data.title,
   FormEntry.field "subtitle" data.subtitle,
   FormEntry.field "body" data.body_markdown,
   FormEntry.field "est_read_time" (toString (calculateReadTime data.body_markdown))] ++
  (if heroProvided then [FormEntry.file "hero_img"] else [])

/-- Fallback-mode `updateMagazine` (part_007 lines 497-535): inside
try/catch; a missing id returns "Magazine not found"; otherwise the
record is overwritten with the form fields, the hero image is replaced
only when a new one was supplied, the read time is recomputed only when
`data.body_markdown` is truthy (non-empty), and `updated_at` is
refreshed. -/
def updateMagazineFallback (stored : StoredMags) (now : Nat) (id : String)
    (data : MagazineFormData) (heroBase64 : Option String) :
    JsOutcome (Option String × StoredMags) :=
  match parseStoredMags stored with
  | .thrown e => .ok (some e, stored)
  | .ok all =>
    match updateFirstById id (fun m =>
      { m with
        title := data.title,
        subtitle := if data.subtitle = "" then none else some data.subtitle,
        body_markdown := data.body_markdown,
        hero_image_url :=
          match heroBase64 with
          | some h => some h
          | none => m.hero_image_url,
        hero_thumbnail_url :=
          match heroBase64 with
          | some h => some h
          | none => m.hero_thumbnail_url,
        read_time_minutes :=
          if data.body_markdown = "" then m.read_time_minutes
          else calculateReadTime data.body_markdown,
        updated_at := now }) all with
    | none => .ok (some "Magazine not found", stored)
    | some updated => .ok (none, .good updated)

/-! ## Remote-mode list normalisation (part_007 lines 253-287) -/

/-- The `created_by` field of a backend content item: it may be absent
(or null), a bare author-id string, or a populated author object. -/
inductive CreatedBy where
  | absent
  | str (s : String)
  | obj (oid name : String)
  deriving Repr, DecidableEq

/-- A JS value as it can end up in a normalised field that is fed by an
`||` chain over heterogeneous operands: null/undefined, a string, or a
`created_by` object that leaked through the chain. -/
inductive JsVal where
  | nullv
  | strv (s : String)
  | objv (oid name : String)
  deriving Repr, DecidableEq

/-- The expression `a || b` on optional strings, with the empty string
falsy. -/
def jsOrStr (a b : Option String) : Option String :=
  match a with
  | some s => if s = "" then b else some s
  | none => b

/-- The expression `a || b` on optional numbers, with 0 falsy. -/
def jsOrNat (a b : Option Nat) : Option Nat :=
  match a with
  | some n => if n = 0 then b else some n
  | none => b

/-- A backend content item as read by the normaliser: every field the
mapping touches, optional where it may be missing.  `mongoId` is the
`_id` field and `idField` the `id` field; the `Alt` suffix marks the
snake_case alias of a camelCase field. -/
structure RawContent where
  mongoId : Option String
  idField : Option String
  title : String
  subtitle : Option String
  body : Option String
  bodyMarkdown : Option String
  bodyMarkdownAlt : Option String
  bodyHtml : Option String
  bodyHtmlAlt : Option String
  image_url : Option String
  hero_image_url : Option String
  hero_thumbnail_url : Option String
  created_by : CreatedBy
  author_id : Option String
  author_name : Option String
  est_read_time : Option Nat
  read_time_minutes : Option Nat
  read_time : Option Nat
  wordCount : Option Nat
  word_count : Option Nat
  status : Option String
  createdAt : Option Nat
  created_at : Option Nat
  updatedAt : Option Nat
  updated_at : Option Nat
  deriving Repr, DecidableEq

/-- The normalised frontend shape produced by the remote-mode mapping. -/
structure NormContent where
  id : Option String
  title : String
  subtitle : Option String
  body_markdown : Option String
  body_html : Option String
  hero_image_url : Option String
  hero_thumbnail_url : Option String
  author_id : JsVal
  author_name : Option String
  read_time_minutes : Nat
  word_count : Nat
  status : MagazineStatus
  created_at : Option Nat
  updated_at : Option Nat
  deriving Repr, DecidableEq

/-- `api.replace(/\/$/, "")`: drop a single trailing slash. -/
def stripTrailingSlash (api : String) : String :=
  match api.data.getLast? with
  | some c => if c = '/' then String.mk api.data.dropLast else api
  | none => api

/-- The `makeAbsolute` helper (part_007 lines 264-269): null and the
empty string map to null; absolute http(s) URLs pass through; paths
under /uploads/ are resolved against the API origin; anything else
passes through. -/
def makeAbsolute (api : String) (p : Option String) : Option String :=
  match p with
  | none => none
  | some s =>
    if s = "" then none
    else if listStartsWith "http://".data s.data then some s
    else if listStartsWith "https://".data s.data then some s
    else if listStartsWith "/uploads/".data s.data then
      some (stripTrailingSlash api ++ s)
    else some s

/-- The expression `m.created_by?._id || m.created_by || m.author_id ||
null` (part_007 line 279).  When `created_by` is an object with a falsy
`_id`, the object itself is the first truthy operand and becomes the
value of `author_id`. -/
def normAuthorId (cb : CreatedBy) (authorId : Option String) : JsVal :=
  match cb with
  | .obj oid name => if oid = "" then .objv oid name else .strv oid
  | .str s =>
    if s = "" then
      match jsOrStr authorId none with
      | some a => .strv a
      | none => .nullv
    else .strv s
  | .absent =>
    match jsOrStr authorId none with
    | some a => .strv a
    | none => .nullv

/-- The expression `m.created_by?.name || m.author_name || null`
(part_007 line 280). -/
def normAuthorName (cb : CreatedBy) (authorName : Option String) :
    Option String :=
  match cb with
  | .obj _ name => if name = "" then jsOrStr authorName none else some name
  | _ => jsOrStr authorName none

/-- The per-item normalisation of remote-mode `loadMagazines` (part_007
lines 263-287): alias resolution via `||` chains, image path resolution,
author extraction, and backend-to-frontend status translation. -/
def normalizeContent (api : String) (m : RawContent) : NormContent :=
  { id := jsOrStr m.mongoId m.idField,
    title := m.title,
    subtitle := jsOrStr m.subtitle none,
    body_markdown := jsOrStr m.body (jsOrStr m.bodyMarkdown m.bodyMarkdownAlt),
    body_html := jsOrStr m.bodyHtml m.bodyHtmlAlt,
    hero_image_url := makeAbsolute api (jsOrStr m.image_url m.hero_image_url),
    hero_thumbnail_url := makeAbsolute api (jsOrStr m.image_url m.hero_thumbnail_url),
    author_id := normAuthorId m.created_by m.author_id,
    author_name := normAuthorName m.created_by m.author_name,
    read_time_minutes :=
      (jsOrNat m.est_read_time (jsOrNat m.read_time_minutes m.read_time)).getD 0,
    word_count := (jsOrNat m.wordCount m.word_count).getD 0,
    status := statusToFrontend (stringOrD m.status "pending"),
    created_at := jsOrNat m.createdAt m.created_at,
    updated_at := jsOrNat m.updatedAt m.updated_at }

/-- The `mine` filter of remote-mode `loadMagazines` (part_007 line
259): `m.created_by === user.id || (m.created_by?._id === user.id)`. -/
def createdByMatches (cb : CreatedBy) (uid : String) : Bool :=
  match cb with
  | .str s => s = uid
  | .obj oid _ => oid = uid
  | .absent => false

/-- The successful-response body of remote-mode `loadMagazines`
(part_007 lines 254-287): apply the client-side `mine` filter (bypassed
for admins) to the received items, then normalise each. -/
def loadMagazinesRemoteItems (api : String) (user : User)
    (role : Option AppRole) (options : UseMagazinesOptions)
    (items : List RawContent) : List NormContent :=
  let filtered :=
    if options.mine ∧ role ≠ some .admin then
      items.filter (fun m => createdByMatches m.created_by user.id)
    else items
  filtered.map (normalizeContent api)

/-! ## Session Store (AuthContext.tsx lines 1-304, API-backed variant)

The in-memory state is the `user`/`profile`/`role` trio; the durable
artifacts are the `magazine_token` and `magazine_auth` localStorage
keys.  A JWT is modelled at the interface of `decodeJWT` (whose body
uses the atob/JSON built-ins): a token either carries a decodable
payload or makes every decoding step land in the catch branch. -/

/-- The saved `magazine_auth` snapshot: `{user, profile, role}`. -/
structure AuthSnapshot where
  user : User
  profile : Profile
  role : AppRole
  deriving Repr, DecidableEq

/-- A session token: either its payload section decodes to `{id, email,
role?}` claims or decoding throws (malformed base64/JSON). -/
inductive TokenVal where
  | decodable (tid temail : String) (trole : Option AppRole)
  | undecodable (raw : String)
  deriving Repr, DecidableEq

/-- The result type of `decodeJWT` (AuthContext.tsx lines 5-25). -/
structure DecodedJwt where
  id : String
  email : String
  role : AppRole
  deriving Repr, DecidableEq

/-- `decodeJWT`: returns the payload claims with `payload.role ||
"user"`, or null when any decoding step throws. -/
def decodeJWT : TokenVal → Option DecodedJwt
  | .decodable i e r => some { id := i, email := e, role := r.getD .user }
  | .undecodable _ => none

/-- The durable session artifacts in localStorage. -/
structure BrowserStorage where
  token : Option TokenVal
  authSnapshot : Option AuthSnapshot
  deriving Repr, DecidableEq

/-- The AuthContext state: the in-memory identity trio plus the durable
storage it manages. -/
structure AuthState where
  user : Option User
  profile : Option Profile
  role : Option AppRole
  storage : BrowserStorage
  deriving Repr, DecidableEq

/-- `saveAuthState` (AuthContext.tsx lines 116-122): writes the
`magazine_auth` snapshot when all three parts are present, removes it
otherwise. -/
def saveAuthState (st : BrowserStorage) (u : Option User) (p : Option Profile)
    (r : Option AppRole) : BrowserStorage :=
  match u, p, r with
  | some u1, some p1, some r1 => { st with authSnapshot := some ⟨u1, p1, r1⟩ }
  | _, _, _ => { st with authSnapshot := none }

/-- `signOut` (AuthContext.tsx lines 230-237): no remote call (the
backend has no logout endpoint); unconditionally null the in-memory
trio, remove the `magazine_auth` snapshot via `saveAuthState(null, null,
null)`, and remove the `magazine_token` key.  The function returns
nothing and has no failing step. -/
def signOut (st : AuthState) : AuthState :=
  let storage1 := saveAuthState st.storage none none none
  { user := none, profile := none, role := none,
    storage := { storage1 with token := none } }

/-- `email.split("@")[0]`: the part of the email before the first
`@` (the whole string when there is none). -/
def emailLocalPart (email : String) : String :=
  String.mk (email.data.takeWhile (fun c => c ≠ '@'))

/-- The observable outcome of the login fetch in `signIn`: a reply that
fails the `resp.ok && json.success` check (carrying `json.message`), a
passing reply carrying `json.data.token`, or a transport exception
caught by the surrounding try. -/
inductive LoginResp where
  | failure (message : Option String)
  | okToken (token : TokenVal)
  | netError (e : String)
  deriving Repr, DecidableEq

/-- `signIn` (AuthContext.tsx lines 143-178).  On a passing reply the
token is persisted to `magazine_token` first; only then is it decoded.
A decode failure returns the "Failed to decode token" error with the
in-memory trio untouched — and the token still persisted.  On success
the trio is derived from the claims (the profile name from the email
argument before the `@`), and the snapshot is re-persisted. -/
def signIn (st : AuthState) (resp : LoginResp) (now : Nat)
    (email _password : String) : Option String × AuthState :=
  match resp with
  | .netError e => (some e, st)
  | .failure msg => (some (stringOrD msg "Login failed"), st)
  | .okToken t =>
    let storage1 := { st.storage with token := some t }
    match decodeJWT t with
    | none => (some "Failed to decode token", { st with storage := storage1 })
    | some d =>
      let newUser : User := { id := d.id, email := d.email }
      let userProfile : Profile :=
        { id := d.id, user_id := d.id, name := emailLocalPart email,
          email := d.email, avatar_url := none,
          created_at := now, updated_at := now }
      (none,
        { user := some newUser, profile := some userProfile,
          role := some d.role,
          storage := saveAuthState storage1 (some newUser) (some userProfile)
            (some d.role) })

/-! ## Concrete inputs and claim-scenario projections -/

/-- A Markdown-free text of `n` words: n copies of "a" joined by single
spaces. -/
def plainWords (n : Nat) : String :=
  String.mk (List.intercalate [' '] (List.replicate n ['a']))

/-- A sample stored magazine for concrete evaluations. -/
def sampleMag : Magazine :=
  { id := "a", title := "First", subtitle := none, hero_image_url := none,
    hero_thumbnail_url := none, body_markdown := "hello world",
    author_name := "Ann", author_id := "u1", read_time_minutes := 1,
    status := .pending, created_at := 100, updated_at := 100 }

/-- A second sample magazine with a different id, author and creation
time. -/
def sampleMag2 : Magazine :=
  { id := "b", title := "Second", subtitle := some "s",
    hero_image_url := none, hero_thumbnail_url := none,
    body_markdown := "more text here", author_name := "Bob",
    author_id := "u2", read_time_minutes := 1, status := .approved,
    created_at := 200, updated_at := 200 }

/-- The items of the page that fallback `list` returns for an unfiltered
collection `l` and page size `L` (the claim C3 scenario: no session, no
`mine` or status filter). -/
def fallbackListPage (l : List Magazine) (L p : Nat) : List Magazine :=
  match loadMagazinesFallback (.good l) none none ⟨false, none, some L⟩ p with
  | .ok (items, _) => items
  | .thrown _ => []

/-- The pagination record that fallback `list` returns in the same
scenario. -/
def fallbackListInfo (l : List Magazine) (L p : Nat) : PaginationInfo :=
  match loadMagazinesFallback (.good l) none none ⟨false, none, some L⟩ p with
  | .ok (_, info) => info
  | .thrown _ => ⟨0, 0, 0, 0, false, false⟩

/-- A backend content item whose `created_by` is the empty string and
whose snake_case `author_id` field names a different user: the input of
the C8 counterexample. -/
def rawGhost : RawContent :=
  { mongoId := some "m1", idField := none, title := "Ghost",
    subtitle := none, body := some "text", bodyMarkdown := none,
    bodyMarkdownAlt := none, bodyHtml := none, bodyHtmlAlt := none,
    image_url := none, hero_image_url := none, hero_thumbnail_url := none,
    created_by := .str "", author_id := some "x", author_name := none,
    est_read_time := some 1, read_time_minutes := none, read_time := none,
    wordCount := none, word_count := none, status := some "pending",
    createdAt := some 5, created_at := none, updatedAt := some 5,
    updated_at := none }

/-- A backend content item owned by user u1 (populated author object). -/
def rawOwn : RawContent :=
  { mongoId := some "m2", idField := none, title := "Mine",
    subtitle := none, body := some "text", bodyMarkdown := none,
    bodyMarkdownAlt := none, bodyHtml := none, bodyHtmlAlt := none,
    image_url := none, hero_image_url := none, hero_thumbnail_url := none,
    created_by := .obj "u1" "Ann", author_id := none, author_name := none,
    est_read_time := some 1, read_time_minutes := none, read_time := none,
    wordCount := none, word_count := none, status := some "online",
    createdAt := some 6, created_at := none, updatedAt := some 6,
    updated_at := none }

/-- A backend content item owned by another user u2. -/
def rawOther : RawContent :=
  { rawOwn with
    mongoId := some "m3", title := "Other", created_by := .obj "u2" "Bob" }

/-! ## Helper lemmas -/

theorem ceilDiv_zero_left (l : Nat) : ceilDiv 0 l = 0 := by
  unfold ceilDiv
  cases l with
  | zero => rfl
  | succ k => exact Nat.div_eq_of_lt (by omega)

theorem ceilDiv_succ_pred {n l : Nat} (hn : 0 < n) (hl : 0 < l) :
    ceilDiv n l = (n - 1) / l + 1 := by
  unfold ceilDiv
  have h : n + l - 1 = (n - 1) + l := by omega
  rw [h, Nat.add_div_right _ hl]

theorem ceilDiv_pos_of_pos {n l : Nat} (hn : 0 < n) (hl : 0 < l) :
    0 < ceilDiv n l := by
  rw [ceilDiv_succ_pred hn hl]
  exact Nat.succ_pos _

theorem ceilDiv_step {n l : Nat} (hn : 0 < n) (hl : 0 < l) :
    ceilDiv n l = 1 + ceilDiv (n - l) l := by
  rcases Nat.lt_or_ge l n with h | h
  · have hnl : 0 < n - l := by omega
    rw [ceilDiv_succ_pred hn hl, ceilDiv_succ_pred hnl hl]
    have h2 : n - 1 = (n - l - 1) + l := by omega
    rw [h2, Nat.add_div_right _ hl]
    omega
  · have h1 : n - l = 0 := by omega
    rw [h1, ceilDiv_zero_left, ceilDiv_succ_pred hn hl]
    have : n - 1 < l := by omega
    rw [Nat.div_eq_of_lt this]

theorem jsSlice_natCast {α : Type} (l : List α) (a b : Nat) :
    jsSlice l (a : Int) (b : Int) =
      (l.drop (min a l.length)).take (min b l.length - min a l.length) := by
  unfold jsSlice clampIdx
  have ha : ¬((a : Int) < 0) := by omega
  have hb : ¬((b : Int) < 0) := by omega
  simp [ha, hb, Int.toNat_ofNat, Nat.min_comm]

theorem jsSlice_chunk {α : Type} (l : List α) (a L : Nat) (hL : 0 < L) :
    (l.drop (min a l.length)).take (min (a + L) l.length - min a l.length) =
      (l.drop a).take L := by
  rcases le_or_lt l.length a with h | h
  · rw [Nat.min_eq_right h, List.drop_length, List.drop_eq_nil_of_le h]
    simp
  · rw [Nat.min_eq_left (Nat.le_of_lt h)]
    rcases le_or_lt (a + L) l.length with h2 | h2
    · rw [Nat.min_eq_left h2]
      congr 1
      omega
    · rw [Nat.min_eq_right (Nat.le_of_lt h2)]
      have hlen : (l.drop a).length = l.length - a := List.length_drop _ _
      rw [List.take_of_length_le (by omega), List.take_of_length_le (by omega)]

theorem jsSlice_page {α : Type} (l : List α) (L p : Nat) (hL : 0 < L)
    (hp : 1 ≤ p) :
    jsSlice l (((p : Int) - 1) * (L : Int))
      (((p : Int) - 1) * (L : Int) + (L : Int)) =
      (l.drop ((p - 1) * L)).take L := by
  obtain ⟨q, rfl⟩ : ∃ q, p = q + 1 := ⟨p - 1, by omega⟩
  have h1 : (((q + 1 : Nat) : Int) - 1) * (L : Int) = ((q * L : Nat) : Int) := by
    push_cast
    ring
  have h2 : (((q + 1 : Nat) : Int) - 1) * (L : Int) + (L : Int) =
      (((q * L + L : Nat)) : Int) := by
    push_cast
    ring
  rw [h2, h1, jsSlice_natCast]
  have h3 : q + 1 - 1 = q := by omega
  rw [h3]
  exact jsSlice_chunk l (q * L) L hL

theorem chunksJoin {α : Type} (L : Nat) (hL : 0 < L) :
    ∀ (fuel : Nat) (l : List α), l.length ≤ fuel →
      ((List.range (ceilDiv l.length L)).flatMap
        fun i => (l.drop (i * L)).take L) = l := by
  intro fuel
  induction fuel with
  | zero =>
    intro l hl
    have h : l = [] := List.length_eq_zero.mp (Nat.le_zero.mp hl)
    subst h
    simp [ceilDiv_zero_left]
  | succ n ih =>
    intro l hl
    rcases Nat.eq_zero_or_pos l.length with h0 | hpos
    · have h : l = [] := List.length_eq_zero.mp h0
      subst h
      simp [ceilDiv_zero_left]
    · rw [ceilDiv_step hpos hL, Nat.add_comm, List.range_succ_eq_map,
        List.flatMap_cons]
      have hmap : ((List.range (ceilDiv (l.length - L) L)).map Nat.succ).flatMap
          (fun i => (l.drop (i * L)).take L) =
          (List.range (ceilDiv (l.length - L) L)).flatMap
          (fun i => ((l.drop L).drop (i * L)).take L) := by
        rw [List.flatMap_map]
        apply congrArg
        funext i
        rw [List.drop_drop]
        have : L + i * L = Nat.succ i * L := by
          rw [Nat.succ_mul]
          omega
        rw [this]
      rw [hmap]
      have hdl : (l.drop L).length = l.length - L := List.length_drop _ _
      rw [← hdl]
      rw [ih (l.drop L) (by omega)]
      simp [List.take_append_drop]

theorem loadFallback_eq (l : List Magazine) (L p : Nat) (hL : 0 < L)
    (hp : 1 ≤ p) :
    loadMagazinesFallback (.good l) none none ⟨false, none, some L⟩ p =
      .ok (((sortByCreatedDesc l).drop ((p - 1) * L)).take L,
        { currentPage := p, totalPages := ceilDiv l.length L,
          totalCount := l.length, limit := L,
          hasNextPage := decide (p < ceilDiv l.length L),
          hasPrevPage := decide (1 < p) }) := by
  unfold loadMagazinesFallback parseStoredMags optionsLimit
  have hL0 : ¬(L = 0) := by omega
  have hlen : (sortByCreatedDesc l).length = l.length :=
    List.length_insertionSort _ l
  simp only [hL0, if_false, ite_false]
  rw [jsSlice_page _ L p hL hp, hlen]

/-! ## Claim theorems -/

set_option maxRecDepth 100000

/-- C6: the status-vocabulary translation is a round trip — for each of
the three canonical statuses s, statusToFrontend (statusToBackend s) =
s, with approved transmitted as "online" and disapproved as
"archived". -/
theorem statusVocabulary_roundTrip :
    (∀ s : MagazineStatus, statusToFrontend (statusToBackend s) = s) ∧
    statusToBackend .approved = "online" ∧
    statusToBackend .disapproved = "archived" := by
  refine ⟨fun s => ?_, by decide, by decide⟩
  cases s <;> decide

/-- C2: calculateReadTime equals max(1, ceil(w / 225)) where w is the
number of whitespace-separated words of stripMarkdown(text); the result
is always at least 1; the empty string yields 1; 225 plain words yield
1 and 226 plain words yield 2 (the word-count conjuncts certify that
the concrete inputs indeed strip to 225 resp. 226 words). -/
theorem calculateReadTime_spec :
    (∀ text : String,
      calculateReadTime text =
        max 1 (ceilDiv (splitWords (stripMarkdown text)).length 225)) ∧
    (∀ text : String, 1 ≤ calculateReadTime text) ∧
    calculateReadTime "" = 1 ∧
    (splitWords (stripMarkdown (plainWords 225))).length = 225 ∧
    calculateReadTime (plainWords 225) = 1 ∧
    (splitWords (stripMarkdown (plainWords 226))).length = 226 ∧
    calculateReadTime (plainWords 226) = 2 := by
  refine ⟨fun text => rfl, fun text => le_max_left 1 _,
    by decide, by decide, by decide, by decide, by decide⟩

/-- C1: updateStatus called with a non-admin role (in both hook
variants) returns the "Unauthorized" error immediately, issues no fetch
(the request trace is empty), and leaves the stored collection
untouched, for every id, status, token and remote behaviour. -/
theorem updateStatus_nonAdmin_noFetch (role : Option AppRole)
    (h : role ≠ some AppRole.admin) (token : Option String)
    (remote : StatusRequest → FetchOutcome) (api : String)
    (remoteL : String → FetchOutcome) (stored : StoredMags) (now : Nat)
    (id : String) (status : MagazineStatus) :
    updateStatus role token remote stored now id status =
      (some "Unauthorized", [], stored) ∧
    updateStatusLegacy role token api remoteL stored now id status =
      (some "Unauthorized", [], stored) := by
  constructor
  · unfold updateStatus
    rw [if_pos h]
  · unfold updateStatusLegacy
    rw [if_pos h]

/-- Witness for C1 at a concrete non-admin caller. -/
theorem updateStatus_nonAdmin_noFetch_witness :
    updateStatus (some .user) (some "tok") (fun _ => .reply true true none)
        (.good [sampleMag]) 7 "a" .approved =
      (some "Unauthorized", [], .good [sampleMag]) ∧
    updateStatusLegacy (some .user) (some "tok") "http://localhost:4000"
        (fun _ => .reply true true none) (.good [sampleMag]) 7 "a" .approved =
      (some "Unauthorized", [], .good [sampleMag]) :=
  updateStatus_nonAdmin_noFetch (some .user) (by decide) (some "tok")
    (fun _ => .reply true true none) "http://localhost:4000"
    (fun _ => .reply true true none) (.good [sampleMag]) 7 "a" .approved

/-- C9: signOut, from every starting state, unconditionally clears the
in-memory user, profile and role and removes both persisted session
artifacts (token and snapshot); it is a total function with no error
output. -/
theorem signOut_clears_all (st : AuthState) :
    signOut st =
      { user := none, profile := none, role := none,
        storage := { token := none, authSnapshot := none } } := rfl

/-- C10: when the login reply passes the success check but carries an
undecodable token, signIn returns the decode error and leaves the state
unauthenticated — yet the undecodable token has already been persisted
to the token key and remains there (the snapshot is untouched). -/
theorem signIn_undecodable_persists_token (st : AuthState)
    (hu : st.user = none) (hp : st.profile = none) (hr : st.role = none)
    (raw : String) (now : Nat) (email password : String) :
    signIn st (.okToken (.undecodable raw)) now email password =
      (some "Failed to decode token",
        { st with storage :=
            { st.storage with token := some (.undecodable raw) } }) ∧
    (signIn st (.okToken (.undecodable raw)) now email password).2.user = none ∧
    (signIn st (.okToken (.undecodable raw)) now email password).2.profile = none ∧
    (signIn st (.okToken (.undecodable raw)) now email password).2.role = none ∧
    (signIn st (.okToken (.undecodable raw)) now email password).2.storage.token =
      some (.undecodable raw) ∧
    (signIn st (.okToken (.undecodable raw)) now email password).2.storage.authSnapshot =
      st.storage.authSnapshot := by
  have h1 : signIn st (.okToken (.undecodable raw)) now email password =
      (some "Failed to decode token",
        { st with storage :=
            { st.storage with token := some (.undecodable raw) } }) := rfl
  refine ⟨h1, ?_, ?_, ?_, ?_, ?_⟩
  · rw [h1]
    exact hu
  · rw [h1]
    exact hp
  · rw [h1]
    exact hr
  · rw [h1]
  · rw [h1]

/-- Witness for C10 at a concrete unauthenticated state. -/
theorem signIn_undecodable_persists_token_witness :
    signIn ⟨none, none, none, ⟨none, none⟩⟩
        (.okToken (.undecodable "zzz")) 3 "a@x.com" "pw" =
      (some "Failed to decode token",
        ⟨none, none, none, ⟨some (.undecodable "zzz"), none⟩⟩) :=
  (signIn_undecodable_persists_token ⟨none, none, none, ⟨none, none⟩⟩
    rfl rfl rfl "zzz" 3 "a@x.com" "pw").1

/-- C4 counterexample: deleting an id that is not in the stored
collection returns success (the error component is none), not a
NotFound error; the collection is unchanged. -/
theorem deleteMagazine_missing_id_returns_no_error :
    deleteMagazineFallback (.good [sampleMag]) "zzz" =
      .ok (none, .good [sampleMag]) := by decide

/-- C4 (amended): fallback delete of an id not present in the stored
collection returns no error and leaves the collection unchanged. -/
theorem deleteMagazine_missing_id_succeeds_unchanged (l : List Magazine)
    (id : String) (h : ∀ m ∈ l, m.id ≠ id) :
    deleteMagazineFallback (.good l) id = .ok (none, .good l) := by
  have hf : l.filter (fun m => m.id ≠ id) = l :=
    List.filter_eq_self.mpr (fun m hm => by simpa using h m hm)
  show JsOutcome.ok (none, StoredMags.good (l.filter (fun m => m.id ≠ id))) =
    JsOutcome.ok (none, StoredMags.good l)
  rw [hf]

/-- Witness for the amended C4 at a concrete collection and absent id. -/
theorem deleteMagazine_missing_id_succeeds_unchanged_witness :
    deleteMagazineFallback (.good [sampleMag]) "nope" =
      .ok (none, .good [sampleMag]) :=
  deleteMagazine_missing_id_succeeds_unchanged [sampleMag] "nope" (by decide)

/-- C5 counterexample: fallback list runs `JSON.parse` outside any
try/catch, so a malformed stored collection makes `loadMagazines` throw
past its boundary instead of returning an error value. -/
theorem loadMagazines_malformed_throws :
    loadMagazinesFallback (.malformed "oops") none none ⟨false, none, none⟩ 1 =
      .thrown "SyntaxError: Unexpected token in JSON" := rfl

/-- C5 (amended): the four mutating fallback operations
(create/update/delete/update_status) always return a discriminated
result and never throw, for every store content including malformed
JSON; fallback list returns normally for an absent or well-formed
store (but not for a malformed one, see the counterexample). -/
theorem fallback_operations_error_discipline (user : Option User)
    (profile : Option Profile) (stored : StoredMags) (now : Nat)
    (data : MagazineFormData) (hero : Option String) (id : String)
    (status : MagazineStatus) :
    (∃ r, createMagazineFallback user profile stored now data hero = .ok r) ∧
    (∃ r, updateMagazineFallback stored now id data hero = .ok r) ∧
    (∃ r, deleteMagazineFallback stored id = .ok r) ∧
    (∃ r, updateStatusFallback stored now id status = .ok r) ∧
    (∀ u ro opts page, ∃ r,
      loadMagazinesFallback .absent u ro opts page = .ok r) ∧
    (∀ mags u ro opts page, ∃ r,
      loadMagazinesFallback (.good mags) u ro opts page = .ok r) := by
  refine ⟨?_, ?_, ?_, ?_, fun u ro opts page => ⟨_, rfl⟩,
    fun mags u ro opts page => ⟨_, rfl⟩⟩
  · cases user with
    | none => exact ⟨_, rfl⟩
    | some u =>
      cases profile with
      | none => exact ⟨_, rfl⟩
      | some p => cases stored <;> exact ⟨_, rfl⟩
  · cases stored with
    | absent => exact ⟨_, rfl⟩
    | malformed raw => exact ⟨_, rfl⟩
    | good mags =>
      unfold updateMagazineFallback parseStoredMags
      dsimp only
      split <;> exact ⟨_, rfl⟩
  · cases stored <;> exact ⟨_, rfl⟩
  · cases stored with
    | absent => exact ⟨_, rfl⟩
    | malformed raw => exact ⟨_, rfl⟩
    | good mags =>
      unfold updateStatusFallback parseStoredMags
      dsimp only
      split <;> exact ⟨_, rfl⟩

/-- C7: in fallback mode, the Article produced by create carries status
pending, the caller's id and profile name, and the read time computed
from the submitted body; the new record is appended to the store with no
error.  In remote mode the form sent to the collaborator carries the
same client-computed est_read_time field. -/
theorem createMagazine_author_binding (u : User) (p : Profile)
    (l : List Magazine) (now : Nat) (data : MagazineFormData)
    (hero : Option String) :
    createMagazineFallback (some u) (some p) (.good l) now data hero =
      .ok (none, .good (l ++ [mkNewMagazine u p now data hero])) ∧
    (mkNewMagazine u p now data hero).status = .pending ∧
    (mkNewMagazine u p now data hero).author_id = u.id ∧
    (mkNewMagazine u p now data hero).author_name = p.name ∧
    (mkNewMagazine u p now data hero).read_time_minutes =
      calculateReadTime data.body_markdown ∧
    FormEntry.field "est_read_time"
        (toString (calculateReadTime data.body_markdown)) ∈
      createContentForm data hero.isSome :=
  ⟨rfl, rfl, rfl, rfl, rfl, by simp [createContentForm]⟩

/-- C3: in fallback mode, for an unfiltered stored collection and page
size L, list produces ceil(N/L) total pages; hasNextPage is false
exactly on the last page and hasPrevPage exactly on page 1 (among pages
1..ceil(N/L)); concatenating the items of pages 1..ceil(N/L) in order
reproduces the created_at-descending sort of the collection, which is a
permutation of it (each article exactly once). -/
theorem fallback_pagination_contract (l : List Magazine) (L : Nat)
    (hL : 0 < L) :
    (∀ p, 1 ≤ p → (fallbackListInfo l L p).totalPages = ceilDiv l.length L) ∧
    (∀ p, 1 ≤ p → p ≤ ceilDiv l.length L →
      (((fallbackListInfo l L p).hasNextPage = false) ↔
        p = ceilDiv l.length L) ∧
      (((fallbackListInfo l L p).hasPrevPage = false) ↔ p = 1)) ∧
    ((List.range (ceilDiv l.length L)).flatMap
        (fun i => fallbackListPage l L (i + 1)) =
      sortByCreatedDesc l) ∧
    (sortByCreatedDesc l).Perm l := by
  have hinfo : ∀ p, 1 ≤ p → fallbackListInfo l L p =
      { currentPage := p, totalPages := ceilDiv l.length L,
        totalCount := l.length, limit := L,
        hasNextPage := decide (p < ceilDiv l.length L),
        hasPrevPage := decide (1 < p) } := by
    intro p hp
    unfold fallbackListInfo
    rw [loadFallback_eq l L p hL hp]
  have hpage : ∀ p, 1 ≤ p → fallbackListPage l L p =
      ((sortByCreatedDesc l).drop ((p - 1) * L)).take L := by
    intro p hp
    unfold fallbackListPage
    rw [loadFallback_eq l L p hL hp]
  refine ⟨fun p hp => by rw [hinfo p hp], fun p hp hple => ?_, ?_, ?_⟩
  · rw [hinfo p hp]
    constructor
    · simp only [decide_eq_false_iff_not]
      omega
    · simp only [decide_eq_false_iff_not]
      omega
  · have hfun : (fun i => fallbackListPage l L (i + 1)) =
        (fun i => ((sortByCreatedDesc l).drop (i * L)).take L) := by
      funext i
      rw [hpage (i + 1) (by omega)]
      simp
    rw [hfun]
    have hlen : (sortByCreatedDesc l).length = l.length :=
      List.length_insertionSort _ l
    rw [← hlen]
    exact chunksJoin L hL (sortByCreatedDesc l).length (sortByCreatedDesc l)
      (le_refl _)
  · exact List.perm_insertionSort _ l

/-- Witness for C3 at a concrete two-article collection with page size
1: two pages whose concatenation is the sorted collection. -/
theorem fallback_pagination_contract_witness :
    (0 : Nat) < 1 ∧
    ((List.range (ceilDiv ([sampleMag, sampleMag2] : List Magazine).length 1)).flatMap
        (fun i => fallbackListPage [sampleMag, sampleMag2] 1 (i + 1)) =
      sortByCreatedDesc [sampleMag, sampleMag2]) :=
  ⟨by decide,
    (fallback_pagination_contract [sampleMag, sampleMag2] 1 (by decide)).2.2.1⟩

theorem mem_of_mem_jsSlice {α : Type} {a : α} {l : List α} {s e : Int}
    (h : a ∈ jsSlice l s e) : a ∈ l := by
  unfold jsSlice at h
  exact List.mem_of_mem_drop (List.mem_of_mem_take h)

/-- C8 counterexample: for a caller whose id is the empty string, the
remote-mode mine filter admits an item whose `created_by` is the empty
string, but the normalisation `||` chain then skips the falsy empty
string and surfaces the raw `author_id` alias of a different user — the
returned article does not carry the caller's id. -/
theorem mine_view_empty_id_counterexample :
    ¬ (∀ nc ∈ loadMagazinesRemoteItems "https://api" ⟨"", "e@x.com"⟩
        (some .user) ⟨true, none, none⟩ [rawGhost],
        nc.author_id = JsVal.strv "") := by decide

/-- C8 (amended): for every caller with a non-empty id and non-admin
role requesting the mine view, every article returned has author_id
equal to the caller's id — in remote mode via the created_by filter and
normalisation, and in fallback mode via the author_id filter (where the
non-emptiness is not even needed). -/
theorem mine_view_only_own_articles (uid : String) (huid : uid ≠ "")
    (email api : String) (role : Option AppRole)
    (hrole : role ≠ some AppRole.admin) (st : Option MagazineStatus)
    (lim : Option Nat) (items : List RawContent) (l : List Magazine)
    (page : Nat) (itemsOut : List Magazine) (info : PaginationInfo) :
    (∀ nc ∈ loadMagazinesRemoteItems api ⟨uid, email⟩ role ⟨true, st, lim⟩ items,
      nc.author_id = JsVal.strv uid) ∧
    (loadMagazinesFallback (.good l) (some ⟨uid, email⟩) role ⟨true, st, lim⟩
        page = .ok (itemsOut, info) →
      ∀ m ∈ itemsOut, m.author_id = uid) := by
  constructor
  · intro nc hnc
    unfold loadMagazinesRemoteItems at hnc
    rw [if_pos ⟨rfl, hrole⟩] at hnc
    rcases List.mem_map.mp hnc with ⟨m, hm, rfl⟩
    have hmatch : createdByMatches m.created_by uid = true :=
      (List.mem_filter.mp hm).2
    show normAuthorId m.created_by m.author_id = JsVal.strv uid
    cases hcb : m.created_by with
    | absent =>
      rw [hcb] at hmatch
      simp [createdByMatches] at hmatch
    | str s =>
      rw [hcb] at hmatch
      simp only [createdByMatches, decide_eq_true_eq] at hmatch
      subst hmatch
      unfold normAuthorId
      dsimp only
      rw [if_neg huid]
    | obj oid nm =>
      rw [hcb] at hmatch
      simp only [createdByMatches, decide_eq_true_eq] at hmatch
      subst hmatch
      unfold normAuthorId
      dsimp only
      rw [if_neg huid]
  · intro heq m hm
    unfold loadMagazinesFallback parseStoredMags at heq
    dsimp only at heq
    rw [if_pos ⟨rfl, hrole⟩] at heq
    cases st with
    | none =>
      dsimp only at heq
      rw [JsOutcome.ok.injEq, Prod.mk.injEq] at heq
      obtain ⟨hitems, -⟩ := heq
      subst hitems
      have h1 : m ∈ sortByCreatedDesc (l.filter (fun x => x.author_id = uid)) :=
        mem_of_mem_jsSlice hm
      have h2 : m ∈ l.filter (fun x => x.author_id = uid) :=
        (List.perm_insertionSort _ _).mem_iff.mp h1
      have h3 := (List.mem_filter.mp h2).2
      simpa using h3
    | some s =>
      dsimp only at heq
      rw [JsOutcome.ok.injEq, Prod.mk.injEq] at heq
      obtain ⟨hitems, -⟩ := heq
      subst hitems
      have h1 : m ∈ sortByCreatedDesc
          ((l.filter (fun x => x.author_id = uid)).filter
            (fun x => x.status = s)) :=
        mem_of_mem_jsSlice hm
      have h2 := (List.perm_insertionSort _ _).mem_iff.mp h1
      have h3 := (List.mem_filter.mp (List.mem_filter.mp h2).1).2
      simpa using h3

/-- Witness for the amended C8: a concrete non-admin caller u1 sees only
articles whose author_id is u1 in the remote mine view. -/
theorem mine_view_only_own_articles_witness :
    ("u1" : String) ≠ "" ∧
    (∀ nc ∈ loadMagazinesRemoteItems "https://api" ⟨"u1", "a@x.com"⟩
        (some .user) ⟨true, none, none⟩ [rawOwn, rawOther],
      nc.author_id = JsVal.strv "u1") :=
  ⟨by decide,
    (mine_view_only_own_articles "u1" (by decide) "a@x.com" "https://api"
      (some .user) (by decide) none none [rawOwn, rawOther] [] 1 []
      ⟨0, 0, 0, 0, false, false⟩).1⟩
